import Mathlib

/-!
Verification of the multi-source tiled elevation engine of `gdal_interfaces.py`
(open-elevation). The Python classes `GDALInterface`, `GDALTileInterface` and
`GDALPriorityTileInterface` are shallowly embedded as total Lean functions:

* raster-cell value mapping and nearest-cell sampling (`GDALInterface.lookup`);
* the bounded LRU of open raster handles (`GDALTileInterface._open_gdal_interface`);
* spatial-index construction (`GDALTileInterface._build_index`);
* the hierarchical metadata registry (`GDALPriorityTileInterface._load_metadata_registry`);
* dynamic priority computation (`_calculate_dynamic_priority`, `age_in_months`);
* the priority lookup orchestrator (`GDALPriorityTileInterface.lookup`).

Machine floats in the source carry day counts, priorities and degree coordinates
whose magnitudes keep the arithmetic exact; they are embedded as `Int`/`ℚ`.
Python exceptions are embedded as `Except Unit`; code that catches them maps the
error case back to the no-data sentinel exactly where the source does.
-/

/-! ### Raster cell value mapping (`GDALInterface.lookup`, tail) -/

def NO_DATA_VALUE : Int := -9999

def SEA_LEVEL : Int := 0

/-- `no_data_values = [-32768, -9999, -99999, 32767, 65535]` (line 104). -/
def no_data_values : List Int := [-32768, -9999, -99999, 32767, 65535]

/-- Tail of `GDALInterface.lookup` (lines 103-108): sentinel and unrealistic
values map to `NO_DATA_VALUE`; the surviving value is returned unless it is
`-32768`, which would map to `SEA_LEVEL`. -/
def mapRasterValue (v : Int) : Int :=
  if v ∈ no_data_values ∨ v < -10000 ∨ v > 90000 then NO_DATA_VALUE
  else if v ≠ -32768 then v else SEA_LEVEL

/-! ### Nearest-cell sampling (`GDALInterface.lookup`) -/

/-- The six entries of `self.geo_transform_inv` (lines 62-63). -/
structure GeoTransformInv where
  c0 : ℚ
  c1 : ℚ
  c2 : ℚ
  c3 : ℚ
  c4 : ℚ
  c5 : ℚ

/-- The opened raster: `RasterXSize`, `RasterYSize` and the realised
`points_array` (indexed `[ylin, xpix]`). -/
structure RasterSrc where
  rasterXSize : Nat
  rasterYSize : Nat
  cells : Nat → Nat → Int

/-- Python `int()` applied to the inverse-transform pixel coordinate:
truncation toward zero. -/
def ratTrunc (q : ℚ) : Int := if 0 ≤ q then ⌊q⌋ else ⌈q⌉

/-- Lines 78-82: `u`, `v`, `xpix`, `ylin` from the inverse geotransform. -/
def pixelOf (gti : GeoTransformInv) (xgeo ygeo : ℚ) : Int × Int :=
  let u := xgeo - gti.c0
  let v := ygeo - gti.c3
  (ratTrunc (gti.c1 * u + gti.c2 * v), ratTrunc (gti.c4 * u + gti.c5 * v))

/-- The bounds check of lines 85-87: `xpix < 0 or ylin < 0 or
xpix >= RasterXSize or ylin >= RasterYSize`. -/
def outOfBoundsPix (xSize ySize : Nat) (p : Int × Int) : Prop :=
  p.1 < 0 ∨ p.2 < 0 ∨ (xSize : Int) ≤ p.1 ∨ (ySize : Int) ≤ p.2

instance (xSize ySize : Nat) (p : Int × Int) : Decidable (outOfBoundsPix xSize ySize p) := by
  unfold outOfBoundsPix; infer_instance

/-- `GDALInterface.lookup` (lines 73-112). The coordinate transform
(`osr.CoordinateTransformation.TransformPoint`, called as
`TransformPoint(lon, lat, 0)`) is an external library call and is injected as
`transform`; if it raises, the enclosing `try` returns `NO_DATA_VALUE`. -/
def gdalLookup (transform : ℚ → ℚ → Except Unit (ℚ × ℚ)) (gti : GeoTransformInv)
    (src : RasterSrc) (lat lon : ℚ) : Int :=
  match transform lon lat with
  | .error _ => NO_DATA_VALUE
  | .ok (xgeo, ygeo) =>
    let p := pixelOf gti xgeo ygeo
    if outOfBoundsPix src.rasterXSize src.rasterYSize p then NO_DATA_VALUE
    else mapRasterValue (src.cells p.2.toNat p.1.toNat)

/-! Concrete instances used by witnesses. -/

/-- A transform that succeeds and maps every point to the origin. -/
def transformZero : ℚ → ℚ → Except Unit (ℚ × ℚ) := fun _ _ => .ok (0, 0)

/-- The identity-like inverse geotransform (offsets 0, unit scale). -/
def gtiUnit : GeoTransformInv := ⟨0, 1, 0, 0, 0, 1⟩

/-- A 1×1 raster whose single cell holds 125. -/
def raster125 : RasterSrc := ⟨1, 1, fun _ _ => 125⟩

/-- A transform that succeeds and maps every point to `(100, 100)`. -/
def transformFar : ℚ → ℚ → Except Unit (ℚ × ℚ) := fun _ _ => .ok (100, 100)

/-! ### Effective metadata and dynamic priority
(`age_in_months`, `_calculate_dynamic_priority`) -/

/-- An effective metadata record as stored in `source_info`: `priority`,
`name` and `resolution` are always present (defaults 9999, "default", 2000);
`date` and `dynamic_priority` are `None` when absent (lines 287-288). -/
structure EffMeta where
  priority : Int
  name : String
  resolution : Int
  date : Option String
  dynamic_priority : Option Int
deriving DecidableEq

/-- `age_in_months` (lines 15-23). `datetime.strptime` is an external call,
injected as `parseDate` giving the date's day number (`none` on a malformed
string); `today` is the current day number, so `(now - date).days` is
`today - d`. `30.4375` (= `487/16`) is exact in `ℚ`; an exact half never arises
(`32*(today-d)` is even while an odd multiple of 487 is odd), so `round`
agrees with Python's half-to-even rounding. -/
def age_in_months (parseDate : String → Option Int) (today : Int)
    (date_str : String) : Option Int :=
  match parseDate date_str with
  | some d => some (round (((today - d : Int) : ℚ) / (30.4375 : ℚ)))
  | none => none

/-- `_calculate_dynamic_priority` (lines 441-476): `None` dynamic priority
returns the base priority unchanged; otherwise the age defaults to 360 when
the date is falsy (absent or the empty string) or fails to parse, and the
formula `base - (1000 - resolution) - (360 - age) - dynamic_priority`
applies. -/
def calculate_dynamic_priority (parseDate : String → Option Int) (today : Int)
    (eff : EffMeta) : Int :=
  let starting_priority := eff.priority
  match eff.dynamic_priority with
  | none => starting_priority
  | some dynamic_priority =>
    let dataset_age : Int :=
      match eff.date with
      | some ds =>
        if ds = "" then 360
        else (age_in_months parseDate today ds).getD 360
      | none => 360
    starting_priority - (1000 - eff.resolution) - (360 - dataset_age) - dynamic_priority

/-- Lines 392-396 of `GDALPriorityTileInterface.lookup`: when the effective
`dynamic_priority` is not `None` the dynamic formula runs, otherwise the final
priority is the effective base priority. -/
def finalPriorityOf (parseDate : String → Option Int) (today : Int)
    (eff : EffMeta) : Int :=
  match eff.dynamic_priority with
  | some _ => calculate_dynamic_priority parseDate today eff
  | none => eff.priority

/-- The age the specification prescribes (§4.5): `round((today - date)/30.4375)`,
and 360 whenever the date is missing or malformed. -/
def ageSpec (parseDate : String → Option Int) (today : Int)
    (date : Option String) : Int :=
  match date with
  | none => 360
  | some ds =>
    match parseDate ds with
    | none => 360
    | some d => round (((today - d : Int) : ℚ) / (30.4375 : ℚ))

/-- `parseDate` for the witnesses: day 0 is 2006-01-24, day 4098 is
2017-03-15, everything else is malformed. -/
def pdWit : String → Option Int := fun s =>
  if s = "2006-01-24" then some 0
  else if s = "2017-03-15" then some 4098
  else none

/-- Tile A of spec scenario 3. -/
def effA : EffMeta := ⟨2000, "A", 30, some "2006-01-24", some 10⟩

/-- Tile B of spec scenario 3 (`dynamic_priority` null). -/
def effB : EffMeta := ⟨2500, "B", 100, some "2017-03-15", none⟩

/-! ### Spatial index construction (`GDALTileInterface._build_index`) -/

/-- A record of `all_coords`: file path and footprint
`(latMin, latMax, lngMin, lngMax)`. -/
structure TileRec where
  file : String
  latMin : ℚ
  latMax : ℚ
  lngMin : ℚ
  lngMax : ℚ
deriving DecidableEq

/-- The loop of `_build_index` (lines 223-227): `index_id` starts at 1 and,
as in the source, is never changed in the loop body; each record is inserted
with the rectangle `(left, bottom, right, top) =
(coords[0], coords[2], coords[1], coords[3])`. -/
def buildIndexFrom : Nat → List TileRec → List (Nat × (ℚ × ℚ × ℚ × ℚ) × TileRec)
  | _, [] => []
  | index_id, e :: rest =>
    (index_id, (e.latMin, e.lngMin, e.latMax, e.lngMax), e) ::
      buildIndexFrom index_id rest

/-- `_build_index` (lines 221-227). -/
def buildIndex (all_coords : List TileRec) :
    List (Nat × (ℚ × ℚ × ℚ × ℚ) × TileRec) :=
  buildIndexFrom 1 all_coords

/-- Two distinct tile records, the failing input of claim C2. -/
def tileRecA : TileRec := ⟨"a.tif", 0, 1, 0, 1⟩

/-- Second tile record for claim C2. -/
def tileRecB : TileRec := ⟨"b.tif", 2, 3, 2, 3⟩

/-! ### Metadata registry (`GDALPriorityTileInterface._load_metadata_registry`) -/

/-- A directory path as the list of its segments, innermost segment first
(so `os.path.dirname` is `List.tail` and `os.path.basename` is the head);
the filesystem root is `[]`, its own dirname. -/
abbrev DirPath := List String

/-- A parsed `metadata.json` object; `none` marks an absent field. -/
structure RawMeta where
  priority : Option Int := none
  name : Option String := none
  resolution : Option Int := none
  date : Option String := none
  dynamic_priority : Option Int := none
deriving DecidableEq

/-- The intermediate `effective` dict of line 262: the three keys of
`defaults` are present from the start; `date` and `dynamic_priority` only
appear once some metadata file sets them. -/
structure AccMeta where
  priority : Option Int
  name : Option String
  resolution : Option Int
  date : Option String
  dynamic_priority : Option Int
deriving DecidableEq

/-- `defaults = {'priority': 9999, 'name': 'default', 'resolution': 2000}`
(lines 244-248). -/
def defaultsAcc : AccMeta := ⟨some 9999, some "default", some 2000, none, none⟩

/-- `effective.update(meta)`: every key present in `meta` overrides. -/
def updateAcc (acc : AccMeta) (m : RawMeta) : AccMeta where
  priority := match m.priority with | some v => some v | none => acc.priority
  name := match m.name with | some v => some v | none => acc.name
  resolution := match m.resolution with | some v => some v | none => acc.resolution
  date := match m.date with | some v => some v | none => acc.date
  dynamic_priority :=
    match m.dynamic_priority with | some v => some v | none => acc.dynamic_priority

/-- Registry lookup (`cursor in registry`). -/
def regFind (registry : List (DirPath × RawMeta)) (p : DirPath) : Option RawMeta :=
  (registry.find? (fun e => decide (e.1 = p))).map (fun e => e.2)

/-- The `while True` walk of lines 265-275: collect the raw metadata of the
directory and its ancestors, nearest first; stop once the cursor is the data
root, or once `dirname` no longer changes it (the filesystem root). -/
def collectOverrides (registry : List (DirPath × RawMeta)) (root : DirPath) :
    DirPath → List RawMeta
  | [] =>
    match regFind registry [] with
    | some m => [m]
    | none => []
  | s :: rest =>
    let here := match regFind registry (s :: rest) with
      | some m => [m]
      | none => []
    if s :: rest = root then here
    else here ++ collectOverrides registry root rest

/-- `setdefault`: keep a present value, otherwise insert the default. -/
def setdefaultO {α : Type} (v : Option α) (d : α) : Option α :=
  match v with | some x => some x | none => some d

/-- The per-directory effective-metadata computation of
`_load_metadata_registry` (lines 261-289): start from `defaults`, apply the
collected overrides from farthest ancestor to nearest (`reversed(overrides)`),
run the three `setdefault`s (including line 283's basename default for
`name`), then normalise `date` (falsy becomes `None`, line 287) and
`dynamic_priority` (line 288). -/
def effectiveFor (registry : List (DirPath × RawMeta)) (root dirpath : DirPath) :
    EffMeta :=
  let overrides := collectOverrides registry root dirpath
  let acc := overrides.reverse.foldl updateAcc defaultsAcc
  let pr := setdefaultO acc.priority 9999
  let nm := setdefaultO acc.name
    (if dirpath ≠ root then dirpath.headD "" else "default")
  let rs := setdefaultO acc.resolution 2000
  let dt := match acc.date with
    | some d => if d = "" then none else some d
    | none => none
  let dp := acc.dynamic_priority
  ⟨pr.getD 9999, nm.getD "default", rs.getD 2000, dt, dp⟩

/-- Scenario 4 data root `<root>`. -/
def rootDir : DirPath := ["root"]

/-- Scenario 4 directory `<root>/north`. -/
def northDir : DirPath := ["north", "root"]

/-- Scenario 4 directory `<root>/north/arctic`. -/
def arcticDir : DirPath := ["arctic", "north", "root"]

/-- Scenario 4 registry: `north/metadata.json = {priority:1500, resolution:100}`,
`north/arctic/metadata.json = {resolution:32}`. -/
def regScenario4 : List (DirPath × RawMeta) :=
  [(northDir, { priority := some 1500, resolution := some 100 }),
   (arcticDir, { resolution := some 32 })]

/-! ### Priority lookup orchestrator (`GDALPriorityTileInterface.lookup`) -/

/-- The per-query environment of the orchestrator: effective metadata per file
(`_effective_metadata_for_file`), opening a tile through the LRU
(`_open_gdal_interface`, may raise), sampling an opened tile
(`GDALInterface.lookup`, modelled as possibly raising), and the date context
of the dynamic priority formula. -/
structure LookupEnv where
  effOf : String → EffMeta
  openOf : String → Except Unit Unit
  sampleOf : String → Except Unit Int
  parseDate : String → Option Int
  today : Int

/-- `epsilon = 0.0001` (line 358). -/
def epsilonQ : ℚ := 0.0001

/-- Closed-box overlap of the padded query box
`(lat - ε, lng - ε, lat + ε, lng + ε)` with a tile rectangle
`(left, bottom, right, top) = (latMin, lngMin, latMax, lngMax)` — the
R-tree `intersection` of line 362 in the `(lat, lng)` axis convention. -/
def intersectsQuery (t : TileRec) (lat lng : ℚ) : Prop :=
  t.latMin ≤ lat + epsilonQ ∧ lat - epsilonQ ≤ t.latMax ∧
    t.lngMin ≤ lng + epsilonQ ∧ lng - epsilonQ ≤ t.lngMax

instance (t : TileRec) (lat lng : ℚ) : Decidable (intersectsQuery t lat lng) := by
  unfold intersectsQuery; infer_instance

/-- `candidates = list(self.index.intersection(bbox, objects=True))`
(line 362), in index order. -/
def candidatesOf (tiles : List TileRec) (lat lng : ℚ) : List TileRec :=
  tiles.filter (fun t => decide (intersectsQuery t lat lng))

/-- One entry of `adjusted` (lines 387-397):
`(final_priority, eff_meta.get('resolution', 3000), candidate)`; the
`resolution` key is always present in an effective record. -/
def annotate (env : LookupEnv) (l : List TileRec) : List (Int × Int × TileRec) :=
  l.map (fun t =>
    let eff := env.effOf t.file
    (finalPriorityOf env.parseDate env.today eff, eff.resolution, t))

/-- The sort key order of line 400, `key=lambda x: (x[0], x[1])`: ascending
lexicographic on `(final_priority, resolution)`. -/
def keyLE (a b : Int × Int × TileRec) : Prop :=
  a.1 < b.1 ∨ (a.1 = b.1 ∧ a.2.1 ≤ b.2.1)

instance : DecidableRel keyLE := fun a b => by
  unfold keyLE; infer_instance

instance : IsTotal (Int × Int × TileRec) keyLE :=
  ⟨by intro a b; unfold keyLE; omega⟩

instance : IsTrans (Int × Int × TileRec) keyLE :=
  ⟨by intro a b c; unfold keyLE; omega⟩

/-- `adjusted.sort(key=lambda x: (x[0], x[1]))` (line 400). Python's sort is
a stable sort by this key; a stable sort's output is unique for a total
preorder, so the structurally recursive insertion sort embeds it exactly. -/
def sortAdjusted (l : List (Int × Int × TileRec)) : List (Int × Int × TileRec) :=
  List.insertionSort keyLE l

/-- The candidate walk of lines 411-435: the per-tile
`_open_gdal_interface` call (line 416) sits OUTSIDE the per-tile `try`, so
an opening error propagates out of the loop; sampling (line 423) sits inside
it, so a sampling error logs and continues; a sampled value is returned when
it is not `NO_DATA_VALUE`; an exhausted loop returns `NO_DATA_VALUE`
(line 436). -/
def tryCandidates (env : LookupEnv) : List (Int × Int × TileRec) → Except Unit Int
  | [] => .ok NO_DATA_VALUE
  | (_, _, t) :: rest =>
    match env.openOf t.file with
    | .error e => .error e
    | .ok _ =>
      match env.sampleOf t.file with
      | .error _ => tryCandidates env rest
      | .ok elevation =>
        if elevation ≠ NO_DATA_VALUE then .ok elevation
        else tryCandidates env rest

/-- The body of `GDALPriorityTileInterface.lookup` inside its outer `try`
(lines 355-436): no candidates → `NO_DATA_VALUE`; a single candidate is
opened and sampled directly (lines 377-384, both outside any inner `try`);
two or more candidates are annotated, sorted and walked. -/
def lookupBody (env : LookupEnv) (tiles : List TileRec) (lat lng : ℚ) :
    Except Unit Int :=
  match candidatesOf tiles lat lng with
  | [] => .ok NO_DATA_VALUE
  | [t] =>
    match env.openOf t.file with
    | .error e => .error e
    | .ok _ =>
      match env.sampleOf t.file with
      | .error e => .error e
      | .ok elevation =>
        .ok (if elevation ≠ NO_DATA_VALUE then elevation else NO_DATA_VALUE)
  | c1 :: c2 :: rest =>
    tryCandidates env (sortAdjusted (annotate env (c1 :: c2 :: rest)))

/-- The outer `except` (lines 437-439): an escaped exception becomes
`NO_DATA_VALUE`. -/
def except2Int (r : Except Unit Int) : Int :=
  match r with
  | .ok v => v
  | .error _ => NO_DATA_VALUE

/-- `GDALPriorityTileInterface.lookup` (lines 352-439). -/
def priorityLookup (env : LookupEnv) (tiles : List TileRec) (lat lng : ℚ) : Int :=
  except2Int (lookupBody env tiles lat lng)

/-- The body of `GDALTileInterface.lookup` inside its `try` (lines 204-215):
the R-tree `nearest` result is external and injected; the nearest tile, when
there is one, is opened and sampled with no inner handler. -/
def tileLookupBody (openOf : String → Except Unit Unit)
    (sampleOf : String → Except Unit Int) (nearest : Option TileRec) :
    Except Unit Int :=
  match nearest with
  | none => .ok NO_DATA_VALUE
  | some t =>
    match openOf t.file with
    | .error e => .error e
    | .ok _ => sampleOf t.file

/-- `GDALTileInterface.lookup` (lines 202-219) with its `except` clause. -/
def tileLookup (openOf : String → Except Unit Unit)
    (sampleOf : String → Except Unit Int) (nearest : Option TileRec) : Int :=
  except2Int (tileLookupBody openOf sampleOf nearest)

/-- Modelled from the spec (§4.7 step 6): walk the sorted candidates and
return the first sampled elevation that is not `NO_DATA`; `NO_DATA` when
none. -/
def firstSuccessSpec (env : LookupEnv) : List (Int × Int × TileRec) → Int
  | [] => NO_DATA_VALUE
  | (_, _, t) :: rest =>
    match env.sampleOf t.file with
    | .ok v => if v ≠ NO_DATA_VALUE then v else firstSuccessSpec env rest
    | .error _ => firstSuccessSpec env rest

/-- A candidate "yields `NO_DATA` or errors": its open raises, its sampling
raises, or its sampled value is the sentinel. -/
def failsAt (env : LookupEnv) (x : Int × Int × TileRec) : Prop :=
  env.openOf x.2.2.file = .error () ∨ env.sampleOf x.2.2.file = .error () ∨
    env.sampleOf x.2.2.file = .ok NO_DATA_VALUE

/-- Witness tile A: a 2°×2° square around the origin, backed by `"A.tif"`. -/
def tileW1 : TileRec := ⟨"A.tif", -1, 1, -1, 1⟩

/-- Witness tile B: the same square, backed by `"B.tif"`. -/
def tileW2 : TileRec := ⟨"B.tif", -1, 1, -1, 1⟩

/-- Witness environment for the priority walk: A has priority 1000 and
resolution 30 but no data at the query point; B has priority 3000 and
resolution 250 and elevation 87. Every open succeeds. -/
def envW : LookupEnv where
  effOf := fun s =>
    if s = "A.tif" then ⟨1000, "A", 30, none, none⟩ else ⟨3000, "B", 250, none, none⟩
  openOf := fun _ => .ok ()
  sampleOf := fun s => if s = "A.tif" then .ok NO_DATA_VALUE else .ok 87
  parseDate := fun _ => none
  today := 0

/-- Error environment: opening A raises; B would sample 100. -/
def envE : LookupEnv where
  effOf := fun s =>
    if s = "A.tif" then ⟨1000, "A", 30, none, none⟩ else ⟨3000, "B", 250, none, none⟩
  openOf := fun s => if s = "A.tif" then .error () else .ok ()
  sampleOf := fun s => if s = "A.tif" then .ok 55 else .ok 100
  parseDate := fun _ => none
  today := 0

/-! ### Tile-handle LRU cache (`GDALTileInterface._open_gdal_interface`) -/

/-- An opened raster backend: the order it was opened in (a fresh id) and the
path it was opened for (`GDALInterface(path)`). -/
structure GHandle where
  id : Nat
  path : String
deriving DecidableEq

/-- The cache state: `cached_open_interfaces` (the recency list, least recent
first), `cached_open_interfaces_dict` (an association list standing for the
dict; Python dict keys are unique), the fresh-handle counter, and the log of
handles closed by eviction. -/
structure LRUState where
  order : List String
  dict : List (String × GHandle)
  nextId : Nat
  closedLog : List GHandle
deriving DecidableEq

/-- The cache of a freshly constructed interface (lines 131-132). -/
def initLRU : LRUState := ⟨[], [], 0, []⟩

/-- `path in dict` / `dict[path]`. -/
def dictFind (d : List (String × GHandle)) (p : String) : Option GHandle :=
  (d.find? (fun e => e.1 == p)).map (fun e => e.2)

/-- `del dict[path]`: remove the (unique) entry with that key. -/
def dictErase (d : List (String × GHandle)) (p : String) : List (String × GHandle) :=
  d.eraseP (fun e => e.1 == p)

/-- `_open_gdal_interface` (lines 135-153). Hit: `remove(path)` from the
recency list and re-append it (promotion to most recent), return the cached
backend. Miss: open a fresh backend, append to list and dict; then, if the
list exceeds `open_interfaces_size`, pop the head (the least recent), close
that backend and delete its dict entry. -/
def lruGet (K : Nat) (s : LRUState) (p : String) : LRUState × GHandle :=
  match dictFind s.dict p with
  | some interface =>
    ({ s with order := s.order.erase p ++ [p] }, interface)
  | none =>
    let interface : GHandle := ⟨s.nextId, p⟩
    let order1 := s.order ++ [p]
    let dict1 := s.dict ++ [(p, interface)]
    if order1.length > K then
      let last_interface_path := order1.headD ""
      let closed := dictFind dict1 last_interface_path
      ({ order := order1.drop 1
        , dict := dictErase dict1 last_interface_path
        , nextId := s.nextId + 1
        , closedLog := s.closedLog ++ closed.toList }, interface)
    else
      ({ order := order1, dict := dict1, nextId := s.nextId + 1,
         closedLog := s.closedLog }, interface)

/-- A sequence of `get` calls starting from the empty cache. -/
def lruRun (K : Nat) (reqs : List String) : LRUState :=
  reqs.foldl (fun s p => (lruGet K s p).1) initLRU

/-- Modelled from the spec (§4.2): move `p` to the most-recent end of a
recency list. -/
def moveToEnd (acc : List String) (p : String) : List String := acc.erase p ++ [p]

/-- Modelled from the spec (§4.2, §8.3): the distinct requested paths in
recency order, most recent last. -/
def dedupKeepLast (reqs : List String) : List String := reqs.foldl moveToEnd []

/-- The last `K` entries of a list (the `K` most recent). -/
def takeLastK (K : Nat) (l : List String) : List String := l.drop (l.length - K)

/-- The pure evolution of the recency list: promotion on hit, append on miss,
evict the head on overflow. -/
def orderStep (K : Nat) (w : List String) (p : String) : List String :=
  if p ∈ w then w.erase p ++ [p]
  else if (w ++ [p]).length > K then (w ++ [p]).drop 1 else w ++ [p]

/-- The cache invariant: the recency list has no duplicates, the dict keys
are exactly the recency-list entries, and every dict entry holds the backend
opened for its own key. -/
def lruInv (s : LRUState) : Prop :=
  s.order.Nodup ∧ (s.dict.map Prod.fst).Perm s.order ∧
    ∀ e ∈ s.dict, e.2.path = e.1

/-! ### Theorems and claim checks -/

/-- Helper: in `mapRasterValue` the `-32768 → SEA_LEVEL` branch is unreachable,
because `-32768 ∈ no_data_values` already returned `NO_DATA_VALUE`. -/
theorem mapRasterValue_eq (v : Int) :
    mapRasterValue v =
      if v ∈ no_data_values ∨ v < -10000 ∨ v > 90000 then NO_DATA_VALUE else v := by
  unfold mapRasterValue
  split
  · rfl
  · rename_i h
    have hv : v ≠ -32768 := by
      intro hv
      exact h (Or.inl (by rw [hv]; decide))
    simp [hv]

/-- C1 (counterexample): a raster whose cell holds the raw value `-32768` is
sampled as `NO_DATA_VALUE = -9999`, not as sea level `0`: `-32768` is a member
of `no_data_values` and that check runs before the sea-level substitution. -/
theorem C1_counterexample :
    gdalLookup transformZero gtiUnit ⟨1, 1, fun _ _ => -32768⟩ 0 0 = NO_DATA_VALUE ∧
      gdalLookup transformZero gtiUnit ⟨1, 1, fun _ _ => -32768⟩ 0 0 ≠ SEA_LEVEL ∧
      mapRasterValue (-32768) = NO_DATA_VALUE ∧ mapRasterValue (-32768) ≠ SEA_LEVEL := by
  have hp : pixelOf gtiUnit 0 0 = (0, 0) := by
    simp [pixelOf, ratTrunc, gtiUnit]
  have hg : gdalLookup transformZero gtiUnit ⟨1, 1, fun _ _ => -32768⟩ 0 0 =
      NO_DATA_VALUE := by
    unfold gdalLookup
    rw [show transformZero 0 0 = Except.ok ((0 : ℚ), (0 : ℚ)) from rfl]
    dsimp only
    rw [hp]
    decide
  refine ⟨hg, ?_, by decide, by decide⟩
  rw [hg]
  decide

/-- C1 (amended): every raster cell value read in bounds by the per-tile
sampler is mapped as follows: members of `{-32768, -9999, -99999, 32767, 65535}`
and values `< -10000` or `> 90000` yield `NO_DATA_VALUE`; every other value is
returned as-is. The raw value `-32768` yields `NO_DATA_VALUE` (the sea-level
branch is unreachable). -/
theorem C1_cell_value_mapping (transform : ℚ → ℚ → Except Unit (ℚ × ℚ))
    (gti : GeoTransformInv) (src : RasterSrc) (lat lon xg yg : ℚ)
    (hok : transform lon lat = .ok (xg, yg))
    (hin : ¬ outOfBoundsPix src.rasterXSize src.rasterYSize (pixelOf gti xg yg)) :
    gdalLookup transform gti src lat lon =
      (fun v => if v ∈ no_data_values ∨ v < -10000 ∨ v > 90000 then NO_DATA_VALUE else v)
        (src.cells (pixelOf gti xg yg).2.toNat (pixelOf gti xg yg).1.toNat) := by
  unfold gdalLookup
  rw [hok]
  simp only [hin, if_false, mapRasterValue_eq]

/-- C1 witness: the amended mapping at a concrete in-bounds sample returning a
plain value (125). -/
theorem C1_cell_value_mapping_witness :
    gdalLookup transformZero gtiUnit raster125 0 0 = 125 := by
  have hp : pixelOf gtiUnit 0 0 = (0, 0) := by
    simp [pixelOf, ratTrunc, gtiUnit]
  have h := C1_cell_value_mapping transformZero gtiUnit raster125 0 0 0 0 rfl
    (by rw [hp]; decide)
  rw [h, hp]
  decide

/-- C9: whenever the computed pixel fails the bounds check (`xpix < 0`,
`ylin < 0`, `xpix ≥ RasterXSize` or `ylin ≥ RasterYSize`), the sampler returns
`NO_DATA_VALUE` for every possible raster content, so no cell is read and a
pixel outside the raster can never produce a real elevation. -/
theorem C9_bounds_checked (transform : ℚ → ℚ → Except Unit (ℚ × ℚ))
    (gti : GeoTransformInv) (xSize ySize : Nat) (lat lon xg yg : ℚ)
    (hok : transform lon lat = .ok (xg, yg))
    (hoob : outOfBoundsPix xSize ySize (pixelOf gti xg yg)) :
    ∀ cells : Nat → Nat → Int,
      gdalLookup transform gti ⟨xSize, ySize, cells⟩ lat lon = NO_DATA_VALUE := by
  intro cells
  unfold gdalLookup
  rw [hok]
  simp only [hoob, if_true]

/-- C9 witness: a pixel at `(100, 100)` on a 1×1 raster yields `NO_DATA_VALUE`
for an arbitrary cell content. -/
theorem C9_bounds_checked_witness :
    gdalLookup transformFar gtiUnit ⟨1, 1, fun _ _ => 7⟩ 0 0 = NO_DATA_VALUE := by
  have hp : pixelOf gtiUnit 100 100 = (100, 100) := by
    simp [pixelOf, ratTrunc, gtiUnit]
  exact C9_bounds_checked transformFar gtiUnit 1 1 0 0 100 100 rfl
    (by rw [hp]; decide) (fun _ _ => 7)

/-- C5: for every effective metadata record with `dynamic_priority` present,
the final priority is `base - (1000 - resolution) - (360 - age) - dynamic_priority`
with the age given by `round((today - date)/30.4375)` and 360 for a missing or
malformed date; with `dynamic_priority` null the final priority is the base
priority unchanged, regardless of date and resolution. (`parseDate` rejects
the empty string, as `strptime` does.) -/
theorem C5_final_priority (pd : String → Option Int) (today : Int) (eff : EffMeta)
    (hempty : pd "" = none) :
    (∀ dp, eff.dynamic_priority = some dp →
      finalPriorityOf pd today eff =
        eff.priority - (1000 - eff.resolution) - (360 - ageSpec pd today eff.date) - dp)
    ∧ (eff.dynamic_priority = none → finalPriorityOf pd today eff = eff.priority) := by
  constructor
  · intro dp hdp
    unfold finalPriorityOf calculate_dynamic_priority
    rw [hdp]
    have hage : (match eff.date with
        | some ds => if ds = "" then (360 : Int)
                     else (age_in_months pd today ds).getD 360
        | none => (360 : Int)) = ageSpec pd today eff.date := by
      cases hd : eff.date with
      | none => simp [ageSpec]
      | some ds =>
        by_cases hds : ds = ""
        · subst hds
          simp [ageSpec, hempty]
        · simp only [hds, if_false, ageSpec, age_in_months]
          cases hpd : pd ds <;> simp
    rw [hage]
  · intro hnone
    unfold finalPriorityOf
    rw [hnone]

/-- C5 witness: spec scenario 3. Tile A (`priority 2000, resolution 30,
date 2006-01-24, dynamic_priority 10`) with `today` 7275 days after the date
has age 239 and final priority `2000 - 970 - 121 - 10 = 899`; tile B with
null `dynamic_priority` keeps `2500`. -/
theorem C5_final_priority_witness :
    finalPriorityOf pdWit 7275 effA = 899 ∧ finalPriorityOf pdWit 7275 effB = 2500 := by
  have hempty : pdWit "" = none := by simp [pdWit]
  constructor
  · have hA := (C5_final_priority pdWit 7275 effA hempty).1 10 rfl
    have hage : ageSpec pdWit 7275 effA.date = 239 := by
      show ageSpec pdWit 7275 (some "2006-01-24") = 239
      unfold ageSpec pdWit
      simp only [String.reduceEq, if_true, if_false, reduceIte]
      rw [round_eq, Int.floor_eq_iff]
      norm_num
    rw [hA, hage]
    simp [effA]
  · have hB := (C5_final_priority pdWit 7275 effB hempty).2 rfl
    rw [hB]
    simp [effB]

/-- Helper: every entry produced by the `_build_index` loop carries the same
`index_id` it started with. -/
theorem buildIndexFrom_map_fst (n : Nat) (l : List TileRec) :
    (buildIndexFrom n l).map Prod.fst = List.replicate l.length n := by
  induction l with
  | nil => rfl
  | cons e rest ih => simp [buildIndexFrom, ih, List.replicate_succ]

/-- C2 (evaluation at the failing input): `_build_index` assigns `index_id = 1`
to every record because the counter is never incremented; with two records the
ids are `[1, 1]` (1 occurs twice), and in general every record of the index
gets id 1. -/
theorem C2_index_ids_all_one :
    (buildIndex [tileRecA, tileRecB]).map Prod.fst = [1, 1] ∧
      ((buildIndex [tileRecA, tileRecB]).map Prod.fst).count 1 = 2 ∧
      ∀ l : List TileRec, (buildIndex l).map Prod.fst = List.replicate l.length 1 := by
  refine ⟨rfl, rfl, fun l => buildIndexFrom_map_fst 1 l⟩

/-- C4 (evaluation at the failing input): in scenario 4 the effective metadata
for `<root>/north/arctic` is `{priority: 1500, resolution: 32, name: "default"}`
— the ancestor overlay works as claimed, but the name is `"default"`, not
`"arctic"`: the `defaults` dict already holds a `name`, so the
`setdefault('name', basename)` of line 283 never fires. -/
theorem C4_arctic_effective_name_default :
    effectiveFor regScenario4 rootDir arcticDir = ⟨1500, "default", 32, none, none⟩ ∧
      (effectiveFor regScenario4 rootDir arcticDir).name ≠ "arctic" := by
  exact ⟨rfl, by decide⟩

/-- Helper: with at least two candidates, the priority lookup is the walk of
the sorted annotated candidate list under the outer exception handler. -/
theorem priorityLookup_multi (env : LookupEnv) (tiles : List TileRec) (lat lng : ℚ)
    (hmulti : 2 ≤ (candidatesOf tiles lat lng).length) :
    priorityLookup env tiles lat lng =
      except2Int (tryCandidates env
        (sortAdjusted (annotate env (candidatesOf tiles lat lng)))) := by
  unfold priorityLookup lookupBody
  rcases hl : candidatesOf tiles lat lng with _ | ⟨c1, _ | ⟨c2, cs⟩⟩
  · rw [hl] at hmulti; simp at hmulti
  · rw [hl] at hmulti; simp at hmulti
  · rfl

/-- Helper: when no candidate's open raises, the walk returns the first
sampled elevation that is not the sentinel. -/
theorem tryCandidates_all_open_ok (env : LookupEnv) (l : List (Int × Int × TileRec))
    (h : ∀ x ∈ l, env.openOf x.2.2.file ≠ .error ()) :
    tryCandidates env l = .ok (firstSuccessSpec env l) := by
  induction l with
  | nil => rfl
  | cons x rest ih =>
    obtain ⟨p, r, t⟩ := x
    have hx := h (p, r, t) (List.mem_cons_self _ _)
    have hrest := fun y hy => h y (List.mem_cons_of_mem _ hy)
    unfold tryCandidates firstSuccessSpec
    cases ho : env.openOf t.file with
    | error e => cases e; exact absurd ho hx
    | ok u =>
      cases hs : env.sampleOf t.file with
      | error e => exact ih hrest
      | ok v =>
        by_cases hv : v = NO_DATA_VALUE
        · simp [hv, ih hrest]
        · simp [hv]

/-- Helper: when every candidate yields the sentinel or raises, the guarded
walk yields the sentinel. -/
theorem tryCandidates_all_fail (env : LookupEnv) (l : List (Int × Int × TileRec))
    (h : ∀ x ∈ l, failsAt env x) :
    except2Int (tryCandidates env l) = NO_DATA_VALUE := by
  induction l with
  | nil => rfl
  | cons x rest ih =>
    obtain ⟨p, r, t⟩ := x
    have hx := h (p, r, t) (List.mem_cons_self _ _)
    have hrest := ih (fun y hy => h y (List.mem_cons_of_mem _ hy))
    unfold tryCandidates
    cases ho : env.openOf t.file with
    | error e => rfl
    | ok u =>
      cases hs : env.sampleOf t.file with
      | error e => exact hrest
      | ok v =>
        have hv : v = NO_DATA_VALUE := by
          rcases hx with h1 | h2 | h3
          · rw [ho] at h1; cases h1
          · rw [hs] at h2; cases h2
          · rw [hs] at h3; injection h3
        simp only [hv, ne_eq, not_true_eq_false, if_false, ite_self]
        exact hrest

/-- Helper: the candidates at the witness query point are both witness tiles. -/
theorem candidatesW_eval : candidatesOf [tileW1, tileW2] 0 0 = [tileW1, tileW2] := by
  unfold candidatesOf tileW1 tileW2
  norm_num [List.filter_cons, List.filter_nil, intersectsQuery, epsilonQ]

/-- C6: with two or more candidates, the lookup annotates every candidate
with `(finalPriority, resolution)` and walks exactly the list sorted
ascending by that pair: the walked list is `Sorted keyLE`; when no open
raises, the result is the first sampled elevation that is not
`NO_DATA_VALUE`; and when every candidate yields `NO_DATA` or errors, the
lookup returns `NO_DATA_VALUE`. -/
theorem C6_sorted_priority_walk (env : LookupEnv) (tiles : List TileRec)
    (lat lng : ℚ) (hmulti : 2 ≤ (candidatesOf tiles lat lng).length) :
    priorityLookup env tiles lat lng =
        except2Int (tryCandidates env
          (sortAdjusted (annotate env (candidatesOf tiles lat lng)))) ∧
      List.Sorted keyLE (sortAdjusted (annotate env (candidatesOf tiles lat lng))) ∧
      ((∀ x ∈ sortAdjusted (annotate env (candidatesOf tiles lat lng)),
          env.openOf x.2.2.file ≠ .error ()) →
        priorityLookup env tiles lat lng =
          firstSuccessSpec env (sortAdjusted (annotate env (candidatesOf tiles lat lng)))) ∧
      ((∀ x ∈ sortAdjusted (annotate env (candidatesOf tiles lat lng)), failsAt env x) →
        priorityLookup env tiles lat lng = NO_DATA_VALUE) := by
  refine ⟨priorityLookup_multi env tiles lat lng hmulti, ?_, ?_, ?_⟩
  · exact List.sorted_insertionSort keyLE _
  · intro hopen
    rw [priorityLookup_multi env tiles lat lng hmulti,
      tryCandidates_all_open_ok env _ hopen]
    rfl
  · intro hfail
    rw [priorityLookup_multi env tiles lat lng hmulti]
    exact tryCandidates_all_fail env _ hfail

/-- C6 witness: spec scenario 2. Tiles A (priority 1000, resolution 30,
no data at the point) and B (priority 3000, resolution 250, elevation 87)
both cover the query point; A is tried first and the lookup returns 87. -/
theorem C6_sorted_priority_walk_witness :
    priorityLookup envW [tileW1, tileW2] 0 0 = 87 := by
  have h := C6_sorted_priority_walk envW [tileW1, tileW2] 0 0
    (by rw [candidatesW_eval]; decide)
  have h1 := h.1
  rw [candidatesW_eval] at h1
  rw [h1]
  decide

/-- C3 (counterexample): opening the first-priority candidate raises, the
second candidate would sample elevation 100, yet the lookup returns
`NO_DATA_VALUE`: the open error is caught by the outer handler and the
remaining candidate is never tried (the open call of line 416 is outside the
per-tile `try` of lines 422-431). -/
theorem C3_counterexample :
    priorityLookup envE [tileW1, tileW2] 0 0 = NO_DATA_VALUE ∧
      envE.openOf tileW1.file = .error () ∧
      envE.sampleOf tileW2.file = .ok 100 ∧ (100 : Int) ≠ NO_DATA_VALUE := by
  refine ⟨?_, rfl, rfl, by decide⟩
  rw [priorityLookup_multi envE [tileW1, tileW2] 0 0 (by rw [candidatesW_eval]; decide),
    candidatesW_eval]
  decide

/-- C3 (amended): during the multi-candidate walk, a candidate whose SAMPLING
raises is skipped and the walk continues with the remaining candidates; but a
candidate whose OPEN raises aborts the walk — the exception propagates to the
outer handler and the lookup returns `NO_DATA_VALUE` without trying the
remaining candidates. -/
theorem C3_sampling_error_continues (env : LookupEnv) (tiles : List TileRec)
    (lat lng : ℚ) (x : Int × Int × TileRec) (rest : List (Int × Int × TileRec))
    (hmulti : 2 ≤ (candidatesOf tiles lat lng).length)
    (hsorted : sortAdjusted (annotate env (candidatesOf tiles lat lng)) = x :: rest) :
    (env.openOf x.2.2.file = .ok () → env.sampleOf x.2.2.file = .error () →
      priorityLookup env tiles lat lng = except2Int (tryCandidates env rest)) ∧
    (env.openOf x.2.2.file = .error () →
      priorityLookup env tiles lat lng = NO_DATA_VALUE) := by
  obtain ⟨p, r, t⟩ := x
  constructor
  · intro ho hs
    rw [priorityLookup_multi env tiles lat lng hmulti, hsorted]
    simp only [tryCandidates]
    rw [ho, hs]
  · intro ho
    rw [priorityLookup_multi env tiles lat lng hmulti, hsorted]
    simp only [tryCandidates]
    rw [ho]
    rfl

/-- C3 witness: in the error environment the sorted candidates start with A,
whose open raises, so the whole lookup returns the sentinel. -/
theorem C3_sampling_error_continues_witness :
    priorityLookup envE [tileW1, tileW2] 0 0 = NO_DATA_VALUE := by
  have h := C3_sampling_error_continues envE [tileW1, tileW2] 0 0
    (1000, 30, tileW1) [(3000, 250, tileW2)]
    (by rw [candidatesW_eval]; decide)
    (by rw [candidatesW_eval]; decide)
  exact h.2 rfl

/-- C8: the top-level lookups return an integer for every input — any
exception escaping the body is mapped to `NO_DATA_VALUE`, the worst-case
return, by the outer handler, and otherwise the integer returned is the
body's value. The quantification over `lat lng : ℚ` covers out-of-range
coordinates (latitude outside [-90, 90], longitude outside [-180, 180]);
the same holds for the plain `GDALTileInterface.lookup`. -/
theorem C8_lookup_total :
    (∀ (env : LookupEnv) (tiles : List TileRec) (lat lng : ℚ) (e : Unit),
      lookupBody env tiles lat lng = .error e →
        priorityLookup env tiles lat lng = NO_DATA_VALUE) ∧
    (∀ (env : LookupEnv) (tiles : List TileRec) (lat lng : ℚ),
      priorityLookup env tiles lat lng = NO_DATA_VALUE ∨
        lookupBody env tiles lat lng = .ok (priorityLookup env tiles lat lng)) ∧
    (∀ (openOf : String → Except Unit Unit) (sampleOf : String → Except Unit Int)
        (nearest : Option TileRec) (e : Unit),
      tileLookupBody openOf sampleOf nearest = .error e →
        tileLookup openOf sampleOf nearest = NO_DATA_VALUE) ∧
    (∀ (openOf : String → Except Unit Unit) (sampleOf : String → Except Unit Int)
        (nearest : Option TileRec),
      tileLookup openOf sampleOf nearest = NO_DATA_VALUE ∨
        tileLookupBody openOf sampleOf nearest = .ok (tileLookup openOf sampleOf nearest)) := by
  refine ⟨?_, ?_, ?_, ?_⟩
  · intro env tiles lat lng e he
    unfold priorityLookup
    rw [he]
    rfl
  · intro env tiles lat lng
    unfold priorityLookup
    cases hb : lookupBody env tiles lat lng with
    | ok v => right; rfl
    | error e => left; rfl
  · intro openOf sampleOf nearest e he
    unfold tileLookup
    rw [he]
    rfl
  · intro openOf sampleOf nearest
    unfold tileLookup
    cases hb : tileLookupBody openOf sampleOf nearest with
    | ok v => right; rfl
    | error e => left; rfl

/-- Helper: a dict lookup misses exactly when the key is absent. -/
theorem dictFind_eq_none_iff (d : List (String × GHandle)) (p : String) :
    dictFind d p = none ↔ p ∉ d.map Prod.fst := by
  unfold dictFind
  rw [Option.map_eq_none', List.find?_eq_none]
  simp only [beq_iff_eq]
  constructor
  · intro hall hmem
    obtain ⟨e, he, hfst⟩ := List.mem_map.mp hmem
    exact hall e he hfst
  · intro hnot e he hep
    exact hnot (List.mem_map.mpr ⟨e, he, hep⟩)

/-- Helper: a successful dict lookup returns the entry stored for the key. -/
theorem dictFind_some_mem (d : List (String × GHandle)) (p : String) (h : GHandle)
    (hf : dictFind d p = some h) : (p, h) ∈ d := by
  unfold dictFind at hf
  cases hfe : d.find? (fun e => e.1 == p) with
  | none => rw [hfe] at hf; cases hf
  | some e =>
    rw [hfe] at hf
    have h1 : e.1 = p := by simpa using List.find?_some hfe
    have h2 := List.mem_of_find?_eq_some hfe
    have h3 : e.2 = h := by simpa using hf
    have : e = (p, h) := by
      cases e; simp_all
    exact this ▸ h2

/-- Helper: a present key is found. -/
theorem dictFind_isSome_of_mem (d : List (String × GHandle)) (p : String)
    (hmem : p ∈ d.map Prod.fst) : ∃ h, dictFind d p = some h := by
  cases hf : dictFind d p with
  | none => exact absurd hmem ((dictFind_eq_none_iff d p).mp hf)
  | some h => exact ⟨h, rfl⟩

/-- Helper: dict lookup searches the front of an append first. -/
theorem dictFind_append_left (d d2 : List (String × GHandle)) (p : String)
    (h : GHandle) (hf : dictFind d p = some h) :
    dictFind (d ++ d2) p = some h := by
  unfold dictFind at hf ⊢
  rw [List.find?_append]
  cases hfe : d.find? (fun e => e.1 == p) with
  | none => rw [hfe] at hf; cases hf
  | some e => rw [hfe] at hf; simp [hf]
  
/-- Helper: deleting a key deletes it from the key list. -/
theorem map_fst_dictErase (d : List (String × GHandle)) (p : String) :
    (dictErase d p).map Prod.fst = (d.map Prod.fst).erase p := by
  induction d with
  | nil => rfl
  | cons e rest ih =>
    unfold dictErase at ih ⊢
    by_cases he : e.1 = p
    · simp [List.eraseP_cons, List.erase_cons, he]
    · simp [List.eraseP_cons, List.erase_cons, he, ih]

/-- Helper: nothing survives `takeLastK 0`. -/
theorem takeLastK_zero (l : List String) : takeLastK 0 l = [] := by
  simp [takeLastK]

/-- Helper: the last `K` entries are at most `K` entries. -/
theorem takeLastK_length_le (K : Nat) (l : List String) :
    (takeLastK K l).length ≤ K := by
  simp only [takeLastK, List.length_drop]
  omega

/-- Helper: a list of at most `K` entries is its own last `K` entries. -/
theorem takeLastK_of_le (K : Nat) (l : List String) (h : l.length ≤ K) :
    takeLastK K l = l := by
  simp [takeLastK, Nat.sub_eq_zero_of_le h]

/-- Helper: dropping the length of the left part of an append. -/
theorem drop_eq_of_length_eq (l₁ l₂ : List String) (m : Nat) (hm : m = l₁.length) :
    (l₁ ++ l₂).drop m = l₂ := by
  subst hm
  exact List.drop_left l₁ l₂

/-- Helper: when a suffix fills the window, the last `K` of an append are the
suffix. -/
theorem takeLastK_append_left (K : Nat) (l₁ l₂ : List String)
    (h : l₁.length + l₂.length - K = l₁.length) :
    takeLastK K (l₁ ++ l₂) = l₂ := by
  unfold takeLastK
  rw [List.length_append]
  exact drop_eq_of_length_eq l₁ l₂ _ h

/-- Helper: when the suffix overfills the window by one, the last `K` of an
append drop the suffix's head. -/
theorem takeLastK_append_left_drop (K : Nat) (l₁ l₂ : List String)
    (h : l₁.length + l₂.length - K = l₁.length + 1) :
    takeLastK K (l₁ ++ l₂) = l₂.drop 1 := by
  unfold takeLastK
  rw [List.length_append, h, ← List.drop_drop, List.drop_left]

/-- Helper: one `get` keeps the recency list tracking the last `K` distinct
requests: stepping the last `K` of a duplicate-free history equals the last
`K` of the stepped history. -/
theorem orderStep_takeLastK (K : Nat) (D : List String) (p : String)
    (hD : D.Nodup) :
    orderStep K (takeLastK K D) p = takeLastK K (moveToEnd D p) := by
  rcases Nat.eq_zero_or_pos K with hK0 | hKpos
  · subst hK0
    rw [takeLastK_zero, takeLastK_zero]
    rfl
  have hwlen : (takeLastK K D).length = D.length - (D.length - K) := by
    simp [takeLastK]
  by_cases hpw : p ∈ takeLastK K D
  · -- hit: the unique occurrence of p is inside the window
    have hsplit : D.take (D.length - K) ++ takeLastK K D = D :=
      List.take_append_drop _ D
    have hnd := hD
    rw [← hsplit] at hnd
    have hdisj := (List.nodup_append.mp hnd).2.2
    have hpT : p ∉ D.take (D.length - K) := fun hmem => hdisj hmem hpw
    have h1 : moveToEnd D p =
        D.take (D.length - K) ++ ((takeLastK K D).erase p ++ [p]) := by
      unfold moveToEnd
      conv_lhs => rw [← hsplit]
      rw [List.erase_append_right _ hpT, List.append_assoc]
    have hwpos : 0 < (takeLastK K D).length := List.length_pos_of_mem hpw
    have hTlen : (D.take (D.length - K)).length = D.length - K := by
      rw [List.length_take]; omega
    have hSlen : ((takeLastK K D).erase p ++ [p]).length =
        (takeLastK K D).length := by
      rw [List.length_append, List.length_erase_of_mem hpw]
      simp only [List.length_singleton]
      omega
    rw [h1, takeLastK_append_left K _ _ (by rw [hTlen, hSlen, hwlen]; omega)]
    unfold orderStep
    rw [if_pos hpw]
  by_cases hpD : p ∈ D
  · -- miss, but p sits in the dropped prefix: the history is longer than K
    have hnK : K < D.length := by
      by_contra hle
      push_neg at hle
      rw [takeLastK_of_le K D hle] at hpw
      exact hpw hpD
    have hsplit : D.take (D.length - K) ++ takeLastK K D = D :=
      List.take_append_drop _ D
    have hpT : p ∈ D.take (D.length - K) := by
      have hm : p ∈ D.take (D.length - K) ++ takeLastK K D := by
        rw [hsplit]; exact hpD
      rcases List.mem_append.mp hm with h | h
      · exact h
      · exact absurd h hpw
    have hTlen : (D.take (D.length - K)).length = D.length - K := by
      rw [List.length_take]; omega
    have h1 : moveToEnd D p =
        (D.take (D.length - K)).erase p ++ (takeLastK K D ++ [p]) := by
      unfold moveToEnd
      conv_lhs => rw [← hsplit]
      rw [List.erase_append_left _ hpT, List.append_assoc]
    have hT1len : ((D.take (D.length - K)).erase p).length = D.length - K - 1 := by
      rw [List.length_erase_of_mem hpT, hTlen]
    rw [h1, takeLastK_append_left_drop K _ _ (by
      rw [hT1len, List.length_append, hwlen]
      simp only [List.length_singleton]
      omega)]
    unfold orderStep
    rw [if_neg hpw, if_pos (by
      rw [List.length_append, hwlen]
      simp only [List.length_singleton]
      omega)]
  · -- miss of a never-seen path
    have h1 : moveToEnd D p = D ++ [p] := by
      unfold moveToEnd
      rw [List.erase_of_not_mem hpD]
    rw [h1]
    by_cases hnK : D.length ≤ K
    · rw [takeLastK_of_le K D hnK]
      unfold orderStep
      rw [if_neg hpD]
      by_cases hov : (D ++ [p]).length > K
      · rw [if_pos hov]
        rw [List.length_append, List.length_singleton] at hov
        unfold takeLastK
        rw [List.length_append, List.length_singleton,
          show D.length + 1 - K = 1 by omega]
      · rw [if_neg hov]
        rw [takeLastK_of_le K (D ++ [p]) (Nat.le_of_not_lt hov)]
    · push_neg at hnK
      unfold orderStep
      rw [if_neg hpw, if_pos (by
        rw [List.length_append, hwlen]
        simp only [List.length_singleton]
        omega)]
      unfold takeLastK
      rw [List.length_append, List.length_singleton,
        show D.length + 1 - K = (D.length - K) + 1 by omega,
        ← List.drop_drop]
      conv_rhs =>
        rw [List.drop_append_of_le_length (show D.length - K ≤ D.length by omega)]

/-- Helper: the hit branch of `_open_gdal_interface`. -/
theorem lruGet_hit (K : Nat) (s : LRUState) (p : String) (h : GHandle)
    (hf : dictFind s.dict p = some h) :
    lruGet K s p = ({ s with order := s.order.erase p ++ [p] }, h) := by
  unfold lruGet
  rw [hf]

/-- Helper: the miss branch of `_open_gdal_interface`. -/
theorem lruGet_miss (K : Nat) (s : LRUState) (p : String)
    (hf : dictFind s.dict p = none) :
    lruGet K s p =
      (if (s.order ++ [p]).length > K then
        ({ order := (s.order ++ [p]).drop 1
          , dict := dictErase (s.dict ++ [(p, ⟨s.nextId, p⟩)])
              ((s.order ++ [p]).headD "")
          , nextId := s.nextId + 1
          , closedLog := s.closedLog ++
              (dictFind (s.dict ++ [(p, ⟨s.nextId, p⟩)])
                ((s.order ++ [p]).headD "")).toList }, ⟨s.nextId, p⟩)
      else
        ({ order := s.order ++ [p], dict := s.dict ++ [(p, ⟨s.nextId, p⟩)],
           nextId := s.nextId + 1, closedLog := s.closedLog }, ⟨s.nextId, p⟩)) := by
  unfold lruGet
  rw [hf]

/-- Helper: a hit happens exactly when the path is in the recency list. -/
theorem dictFind_order (s : LRUState) (p : String)
    (hperm : (s.dict.map Prod.fst).Perm s.order) :
    (dictFind s.dict p = none ↔ p ∉ s.order) := by
  rw [dictFind_eq_none_iff]
  constructor
  · exact fun hk hm => hk (hperm.mem_iff.mpr hm)
  · exact fun hm hk => hm (hperm.mem_iff.mp hk)

/-- Helper: one `get` transforms the recency list by `orderStep`. -/
theorem lruGet_order (K : Nat) (s : LRUState) (p : String)
    (hperm : (s.dict.map Prod.fst).Perm s.order) :
    (lruGet K s p).1.order = orderStep K s.order p := by
  unfold orderStep
  cases hf : dictFind s.dict p with
  | some h =>
    have hmem : p ∈ s.order := by
      by_contra hn
      rw [← dictFind_order s p hperm] at hn
      rw [hf] at hn
      cases hn
    rw [lruGet_hit K s p h hf, if_pos hmem]
  | none =>
    have hnmem : p ∉ s.order := (dictFind_order s p hperm).mp hf
    rw [lruGet_miss K s p hf, if_neg hnmem]
    by_cases hov : (s.order ++ [p]).length > K
    · rw [if_pos hov, if_pos hov]
    · rw [if_neg hov, if_neg hov]

/-- Helper: appending a fresh path keeps the recency list duplicate-free. -/
theorem nodup_append_singleton (l : List String) (p : String) (hnd : l.Nodup)
    (hp : p ∉ l) : (l ++ [p]).Nodup := by
  rw [List.nodup_append]
  refine ⟨hnd, List.nodup_singleton p, ?_⟩
  intro a ha hb
  rw [List.mem_singleton] at hb
  subst hb
  exact hp ha

/-- Helper: one `get` preserves the cache invariant. -/
theorem lruGet_inv (K : Nat) (s : LRUState) (p : String) (h : lruInv s) :
    lruInv (lruGet K s p).1 := by
  obtain ⟨hnd, hperm, hpath⟩ := h
  cases hf : dictFind s.dict p with
  | some h0 =>
    have hmem : p ∈ s.order := by
      by_contra hn
      rw [← dictFind_order s p hperm] at hn
      rw [hf] at hn
      cases hn
    rw [lruGet_hit K s p h0 hf]
    refine ⟨?_, ?_, hpath⟩
    · exact nodup_append_singleton _ p (hnd.erase p) hnd.not_mem_erase
    · exact (hperm.trans (List.perm_cons_erase hmem)).trans
        (List.perm_append_singleton p _).symm
  | none =>
    have hnmem : p ∉ s.order := (dictFind_order s p hperm).mp hf
    have hperm1 : ((s.dict ++ [(p, (⟨s.nextId, p⟩ : GHandle))]).map Prod.fst).Perm
        (s.order ++ [p]) := by
      rw [List.map_append]
      exact hperm.append_right _
    have hnd1 : (s.order ++ [p]).Nodup := nodup_append_singleton _ p hnd hnmem
    have hpath1 : ∀ e ∈ s.dict ++ [(p, (⟨s.nextId, p⟩ : GHandle))], e.2.path = e.1 := by
      intro e he
      rcases List.mem_append.mp he with h1 | h1
      · exact hpath e h1
      · rw [List.mem_singleton] at h1
        subst h1
        rfl
    rw [lruGet_miss K s p hf]
    by_cases hov : (s.order ++ [p]).length > K
    · rw [if_pos hov]
      obtain ⟨hd, t, hht⟩ := List.exists_cons_of_ne_nil
        (show s.order ++ [p] ≠ [] by simp)
      refine ⟨?_, ?_, ?_⟩
      · exact List.Nodup.sublist (List.drop_sublist 1 _) hnd1
      · rw [map_fst_dictErase]
        have hpe : (((s.dict ++ [(p, (⟨s.nextId, p⟩ : GHandle))]).map Prod.fst).erase
            ((s.order ++ [p]).headD "")).Perm
            ((s.order ++ [p]).erase ((s.order ++ [p]).headD "")) :=
          hperm1.erase _
        rw [hht] at hpe ⊢
        simpa using hpe
      · intro e he
        exact hpath1 e (List.eraseP_subset _ he)
    · rw [if_neg hov]
      exact ⟨hnd1, hperm1, hpath1⟩

/-- Helper: the dedup of the request history has no duplicates. -/
theorem dedupKeepLast_nodup (reqs : List String) : (dedupKeepLast reqs).Nodup := by
  suffices h : ∀ acc : List String, acc.Nodup → (reqs.foldl moveToEnd acc).Nodup by
    exact h [] List.nodup_nil
  induction reqs with
  | nil => exact fun acc h => h
  | cons r rs ih =>
    intro acc hacc
    exact ih (moveToEnd acc r)
      (nodup_append_singleton _ r (hacc.erase r) hacc.not_mem_erase)

/-- Helper: one more request extends the dedup by a move-to-end. -/
theorem dedupKeepLast_append_one (rs : List String) (r : String) :
    dedupKeepLast (rs ++ [r]) = moveToEnd (dedupKeepLast rs) r := by
  unfold dedupKeepLast
  rw [List.foldl_append]
  rfl

/-- Helper: one more request extends the run by one `get`. -/
theorem lruRun_append_one (K : Nat) (rs : List String) (r : String) :
    lruRun K (rs ++ [r]) = (lruGet K (lruRun K rs) r).1 := by
  unfold lruRun
  rw [List.foldl_append]
  rfl

/-- Helper: every reachable cache state satisfies the invariant. -/
theorem lruRun_inv (K : Nat) (reqs : List String) : lruInv (lruRun K reqs) := by
  induction reqs using List.reverseRecOn with
  | nil => exact ⟨List.nodup_nil, List.Perm.refl _, fun e he => absurd he (List.not_mem_nil e)⟩
  | append_singleton rs r ih =>
    rw [lruRun_append_one]
    exact lruGet_inv K (lruRun K rs) r ih

/-- Helper: the recency list of a run is exactly the last `K` distinct
requested paths, oldest first. -/
theorem lruRun_order (K : Nat) (reqs : List String) :
    (lruRun K reqs).order = takeLastK K (dedupKeepLast reqs) := by
  induction reqs using List.reverseRecOn with
  | nil => simp [lruRun, dedupKeepLast, takeLastK, initLRU]
  | append_singleton rs r ih =>
    rw [lruRun_append_one, dedupKeepLast_append_one,
      lruGet_order K _ r (lruRun_inv K rs).2.1, ih,
      orderStep_takeLastK K _ r (dedupKeepLast_nodup rs)]

/-- C7: after every sequence of `get` calls with capacity `K` from a fresh
cache, the recency list and the dict hold at most `K` entries; the recency
list is exactly the (at most `K`) most-recently-requested distinct paths,
oldest first; a hit promotes its path to the most-recent end; and a miss
arriving at a full cache synchronously evicts the least-recently-used path,
closing the backend kept for it. -/
theorem C7_lru_capacity (K : Nat) (reqs : List String) :
    (lruRun K reqs).order.length ≤ K ∧
    (lruRun K reqs).dict.length ≤ K ∧
    (lruRun K reqs).order = takeLastK K (dedupKeepLast reqs) ∧
    ((lruRun K reqs).dict.map Prod.fst).Perm (takeLastK K (dedupKeepLast reqs)) ∧
    (∀ p, p ∈ (lruRun K reqs).order →
      (lruGet K (lruRun K reqs) p).1.order = (lruRun K reqs).order.erase p ++ [p]) ∧
    (∀ p, p ∉ (lruRun K reqs).order → (lruRun K reqs).order.length = K → 0 < K →
      ∃ hd t h, (lruRun K reqs).order = hd :: t ∧
        dictFind (lruRun K reqs).dict hd = some h ∧ h.path = hd ∧
        (lruGet K (lruRun K reqs) p).1.order = t ++ [p] ∧
        (lruGet K (lruRun K reqs) p).1.closedLog =
          (lruRun K reqs).closedLog ++ [h]) := by
  obtain ⟨hnd, hperm, hpath⟩ := lruRun_inv K reqs
  have hlen : (lruRun K reqs).order.length ≤ K := by
    rw [lruRun_order]
    exact takeLastK_length_le _ _
  refine ⟨hlen, ?_, lruRun_order K reqs, ?_, ?_, ?_⟩
  · have hle := hperm.length_eq
    rw [List.length_map] at hle
    omega
  · rw [← lruRun_order K reqs]
    exact hperm
  · intro p hp
    have hsome : ∃ h, dictFind (lruRun K reqs).dict p = some h := by
      cases hfind : dictFind (lruRun K reqs).dict p with
      | none => exact absurd hp ((dictFind_order _ p hperm).mp hfind)
      | some h => exact ⟨h, rfl⟩
    obtain ⟨h, hfind⟩ := hsome
    rw [lruGet_hit K _ p h hfind]
  · intro p hp hfull hK
    have hfind : dictFind (lruRun K reqs).dict p = none :=
      (dictFind_order _ p hperm).mpr hp
    obtain ⟨hd, t, hht⟩ := List.exists_cons_of_ne_nil
      (show (lruRun K reqs).order ≠ [] from by
        intro h0
        rw [h0] at hfull
        simp at hfull
        omega)
    have hhd : hd ∈ (lruRun K reqs).order := by
      rw [hht]
      exact List.mem_cons_self _ _
    obtain ⟨h, hfh⟩ := dictFind_isSome_of_mem _ hd (hperm.mem_iff.mpr hhd)
    have hpathh : h.path = hd := hpath (hd, h) (dictFind_some_mem _ hd h hfh)
    have hov : ((lruRun K reqs).order ++ [p]).length > K := by
      rw [List.length_append, List.length_singleton]
      omega
    have hold : ((lruRun K reqs).order ++ [p]).headD "" = hd := by
      rw [hht]
      rfl
    refine ⟨hd, t, h, hht, hfh, hpathh, ?_, ?_⟩
    · rw [lruGet_miss K _ p hfind, if_pos hov]
      dsimp only
      rw [hht]
      rfl
    · rw [lruGet_miss K _ p hfind, if_pos hov]
      dsimp only
      rw [hold, dictFind_append_left _ _ hd h hfh]
      rfl

/-- C10: after every sequence of `get` calls, the recency list holds no
duplicate path, its entries are exactly the dict's key set, every dict entry
maps a path to the backend opened for that path, and a further `get(p)`
always hands back a backend opened for `p` itself. -/
theorem C10_cache_consistency (K : Nat) (reqs : List String) :
    (lruRun K reqs).order.Nodup ∧
    ((lruRun K reqs).dict.map Prod.fst).Perm (lruRun K reqs).order ∧
    (∀ e ∈ (lruRun K reqs).dict, e.2.path = e.1) ∧
    (∀ p, (lruGet K (lruRun K reqs) p).2.path = p) := by
  obtain ⟨hnd, hperm, hpath⟩ := lruRun_inv K reqs
  refine ⟨hnd, hperm, hpath, ?_⟩
  intro p
  cases hf : dictFind (lruRun K reqs).dict p with
  | some h =>
    rw [lruGet_hit K _ p h hf]
    exact hpath (p, h) (dictFind_some_mem _ p h hf)
  | none =>
    rw [lruGet_miss K _ p hf]
    by_cases hov : ((lruRun K reqs).order ++ [p]).length > K
    · rw [if_pos hov]
    · rw [if_neg hov]
